import Mathlib

/-!
A shallow embedding of the catalog / retrieval engine of the
`scraper_reclameaqui` repository: the MinIO path codec (`runner.py`),
the catalog indexer, query filter, cache and format decoder
(`data_reader.py`) and the aggregation helpers (`data_helpers.py`),
together with proofs of the specified properties.
-/

namespace ScraperRA

/-- JSON values as produced by `json.loads`.  Numbers are modelled as
rationals (the source only ever compares and averages them). -/
inductive Json : Type where
  | null : Json
  | bool (b : Bool) : Json
  | num (q : ℚ) : Json
  | str (s : String) : Json
  | arr (xs : List Json) : Json
  | obj (kvs : List (String × Json)) : Json

/-- Python `==` on JSON values (used by the `in` operator on lists),
modelled as structural equality. -/
def Json.beq : Json → Json → Bool
  | .null, .null => true
  | .bool a, .bool b => a == b
  | .num a, .num b => a == b
  | .str a, .str b => a == b
  | .arr xs, .arr ys => beqList xs ys
  | .obj a, .obj b => beqObj a b
  | _, _ => false
where
  beqList : List Json → List Json → Bool
    | [], [] => true
    | x :: xs, y :: ys => Json.beq x y && beqList xs ys
    | _, _ => false
  beqObj : List (String × Json) → List (String × Json) → Bool
    | [], [] => true
    | (k, v) :: xs, (k', v') :: ys => k == k' && Json.beq v v' && beqObj xs ys
    | _, _ => false

/-- Python truthiness of a JSON value (`if dados:` in the source):
`None`, `False`, `0`, `""`, `[]` and `{}` are falsy. -/
def Json.truthy : Json → Bool
  | .null => false
  | .bool b => b
  | .num q => q != 0
  | .str s => s != ""
  | .arr xs => !xs.isEmpty
  | .obj kvs => !kvs.isEmpty

/-! ### String utilities

Character-level models of the Python string operations used by the
source: `str.split(sep)`, `'/'.join(...)` and the substring test
`needle in haystack`. -/

/-- Python `str.split(sep)` for a one-character separator, on the
character list of the string.  Empty fields are kept, and splitting the
empty string yields `[""]`, as in Python. -/
def splitOnChar (sep : Char) : List Char → List (List Char)
  | [] => [[]]
  | c :: cs =>
    if c = sep then [] :: splitOnChar sep cs
    else
      match splitOnChar sep cs with
      | [] => [[c]]
      | p :: ps => (c :: p) :: ps

/-- Python `sep.join(parts)` for a one-character separator. -/
def joinChar (sep : Char) : List (List Char) → List Char
  | [] => []
  | [x] => x
  | x :: xs => x ++ sep :: joinChar sep xs

/-- Helper for the Python substring test, on character lists. -/
def subAux (needle : List Char) : List Char → Bool
  | [] => needle.isEmpty
  | c :: cs => needle.isPrefixOf (c :: cs) || subAux needle cs

/-- Python `needle in haystack` on strings (substring containment). -/
def containsSub (needle hay : String) : Bool :=
  subAux needle.data hay.data

/-! ### Data model (`data_reader.DataFile`) -/

/-- The `DataFile` dataclass of `data_reader.py`.  `size_mb` defaults to
`0` and is never set by the listing code. -/
structure DataFile where
  path : String
  layer : String
  category : String
  filename : String
  date : String
  size_mb : ℚ := 0
  deriving DecidableEq, Repr

/-! ### Path codec

Encoding is the object-path construction of `MinIOClient.upload_json`
(`runner.py` line 83): `f"{category}/{datetime.now().strftime('%Y/%m/%d')}/{filename}"`.
Decoding is the key decomposition inside
`DataReader.listar_arquivos_disponiveis` (`data_reader.py` lines 70-85). -/

/-- A decimal digit character, `'0'`-`'9'`. -/
def digitChar (n : ℕ) : Char := Char.ofNat (48 + n % 10)

/-- Two-digit zero-padded rendering, as `strftime('%m')` / `'%d'`
produce for values below 100. -/
def twoDigits (n : ℕ) : List Char := [digitChar (n / 10), digitChar n]

/-- Four-digit zero-padded rendering, as `strftime('%Y')` produces for
years below 10000. -/
def fourDigits (n : ℕ) : List Char :=
  [digitChar (n / 1000), digitChar (n / 100), digitChar (n / 10), digitChar n]

/-- The `strftime('%Y/%m/%d')` date fragment of an uploaded object path. -/
def datePath (y m d : ℕ) : List Char :=
  fourDigits y ++ '/' :: twoDigits m ++ '/' :: twoDigits d

/-- The object path built by `upload_json`:
`category/YYYY/MM/DD/filename`. -/
def uploadObjectPath (category : String) (y m d : ℕ) (filename : String) : String :=
  (category.data ++ '/' :: datePath y m d ++ '/' :: filename.data).asString

/-- The per-key decoding performed by `listar_arquivos_disponiveis`:
split on `'/'`, require at least 4 segments, take the first segment as
category, the last as filename and segments 2-4 joined as the date. -/
def decodeKey (layer key : String) : Option DataFile :=
  if 4 ≤ (splitOnChar '/' key.data).length then
    some { path := key
           layer := layer
           category := ((splitOnChar '/' key.data).headD []).asString
           filename := ((splitOnChar '/' key.data).getLastD []).asString
           date := (joinChar '/' (((splitOnChar '/' key.data).drop 1).take 3)).asString }
  else none

/-! ### Lexicographic string comparison

Python compares strings lexicographically by code point.  The `String`
order instances of the library do not reduce in the kernel, so we use
an executable character-level comparison; `lexLe` / `lexLt` are exactly
Python's `<=` / `<` on strings. -/

/-- Python `a <= b` on strings, on their character lists. -/
def lexLe : List Char → List Char → Bool
  | [], _ => true
  | _ :: _, [] => false
  | a :: as, b :: bs => if a = b then lexLe as bs else decide (a < b)

/-- Python `a < b` on strings, on their character lists. -/
def lexLt : List Char → List Char → Bool
  | _, [] => false
  | [], _ :: _ => true
  | a :: as, b :: bs => if a = b then lexLt as bs else decide (a < b)

theorem lexLe_refl (as : List Char) : lexLe as as = true := by
  induction as with
  | nil => rfl
  | cons a as ih => simp [lexLe, ih]

theorem lexLe_total (as bs : List Char) :
    lexLe as bs = true ∨ lexLe bs as = true := by
  induction as generalizing bs with
  | nil => left; rfl
  | cons a as ih =>
    cases bs with
    | nil => right; rfl
    | cons b bs =>
      by_cases hab : a = b
      · subst hab
        rcases ih bs with h | h
        · left; simpa [lexLe] using h
        · right; simpa [lexLe] using h
      · rcases lt_or_gt_of_ne hab with h | h
        · left; simp [lexLe, hab, h]
        · right; simp [lexLe, Ne.symm hab, h, not_lt_of_gt h]

theorem lexLe_trans {as bs cs : List Char} (h1 : lexLe as bs = true)
    (h2 : lexLe bs cs = true) : lexLe as cs = true := by
  induction as generalizing bs cs with
  | nil => rfl
  | cons a as ih =>
    cases bs with
    | nil => simp [lexLe] at h1
    | cons b bs =>
      cases cs with
      | nil => simp [lexLe] at h2
      | cons c cs =>
        by_cases hab : a = b <;> by_cases hbc : b = c
        · subst hab; subst hbc
          simp only [lexLe, if_pos rfl] at h1 h2 ⊢
          exact ih h1 h2
        · subst hab
          simp only [lexLe, if_pos rfl, if_neg hbc] at h1 h2 ⊢
          exact h2
        · subst hbc
          simp only [lexLe, if_pos rfl, if_neg hab] at h1 h2 ⊢
          exact h1
        · simp only [lexLe, if_neg hab, if_neg hbc, decide_eq_true_eq] at h1 h2
          have hac : a < c := lt_trans h1 h2
          simp [lexLe, ne_of_lt hac, hac]

/-- `lexLt` is the boolean negation of `lexLe` in the other direction,
as for any linear order. -/
theorem lexLt_eq_not_lexLe (as bs : List Char) :
    lexLt as bs = !lexLe bs as := by
  induction as generalizing bs with
  | nil =>
    cases bs with
    | nil => rfl
    | cons b bs => simp [lexLt, lexLe]
  | cons a as ih =>
    cases bs with
    | nil => rfl
    | cons b bs =>
      by_cases hab : a = b
      · subst hab; simp [lexLt, lexLe, ih]
      · have hba : ¬ b = a := Ne.symm hab
        rcases lt_or_gt_of_ne hab with h | h
        · simp [lexLt, lexLe, hab, hba, h, not_lt_of_gt h]
        · simp [lexLt, lexLe, hab, hba, h, not_lt_of_gt h]

theorem lexLt_eq_false_iff {as bs : List Char} :
    lexLt as bs = false ↔ lexLe bs as = true := by
  rw [lexLt_eq_not_lexLe]
  cases lexLe bs as <;> simp

/-! ### Stable descending insertion sort

`list.sort(key=..., reverse=True)` in Python is a stable sort; with
`reverse=True` elements with equal keys still keep their original
relative order.  We model it by an insertion sort that inserts each
element before the first element whose key is `≤` its own, for an
arbitrary executable total preorder `leB` on the keys. -/

section SortDesc

variable {α β : Type*} (key : α → β) (leB : β → β → Bool)

/-- Insert `x` before the first element whose key is `leB`-below `key x`. -/
def insertDescBy (x : α) : List α → List α
  | [] => [x]
  | y :: ys => if leB (key y) (key x) then x :: y :: ys else y :: insertDescBy x ys

/-- Stable sort by `key`, descending (Python
`sort(key=..., reverse=True)`). -/
def sortDescBy : List α → List α
  | [] => []
  | x :: xs => insertDescBy key leB x (sortDescBy xs)

theorem mem_insertDescBy {a x : α} {l : List α} :
    a ∈ insertDescBy key leB x l ↔ a = x ∨ a ∈ l := by
  induction l with
  | nil => simp [insertDescBy]
  | cons y ys ih =>
    by_cases h : leB (key y) (key x)
    · simp [insertDescBy, h]
    · simp [insertDescBy, h, ih]
      tauto

theorem mem_sortDescBy {a : α} {l : List α} :
    a ∈ sortDescBy key leB l ↔ a ∈ l := by
  induction l with
  | nil => simp [sortDescBy]
  | cons x xs ih => simp [sortDescBy, mem_insertDescBy, ih]

theorem pairwise_insertDescBy
    (htot : ∀ a b, leB a b = true ∨ leB b a = true)
    (htrans : ∀ a b c, leB a b = true → leB b c = true → leB a c = true)
    {x : α} {l : List α}
    (h : l.Pairwise fun a b => leB (key b) (key a) = true) :
    (insertDescBy key leB x l).Pairwise fun a b => leB (key b) (key a) = true := by
  induction l with
  | nil => simp [insertDescBy]
  | cons y ys ih =>
    rcases List.pairwise_cons.mp h with ⟨hy, hys⟩
    by_cases hle : leB (key y) (key x) = true
    · rw [insertDescBy, if_pos hle]
      refine List.pairwise_cons.mpr ⟨?_, h⟩
      intro z hz
      rcases List.mem_cons.mp hz with rfl | hz
      · exact hle
      · exact htrans _ _ _ (hy z hz) hle
    · rw [insertDescBy, if_neg hle]
      refine List.pairwise_cons.mpr ⟨?_, ih hys⟩
      intro z hz
      rcases (mem_insertDescBy key leB).mp hz with rfl | hz
      · rcases htot (key z) (key y) with h' | h'
        · exact h'
        · exact absurd h' hle
      · exact hy z hz

theorem pairwise_sortDescBy
    (htot : ∀ a b, leB a b = true ∨ leB b a = true)
    (htrans : ∀ a b c, leB a b = true → leB b c = true → leB a c = true)
    (l : List α) :
    (sortDescBy key leB l).Pairwise fun a b => leB (key b) (key a) = true := by
  induction l with
  | nil => simp [sortDescBy]
  | cons x xs ih => exact pairwise_insertDescBy key leB htot htrans ih

theorem filter_insertDescBy [DecidableEq β]
    (htot : ∀ a b, leB a b = true ∨ leB b a = true)
    (x : α) (l : List α) (d : β) :
    (insertDescBy key leB x l).filter (fun a => decide (key a = d)) =
      if key x = d then x :: l.filter (fun a => decide (key a = d))
      else l.filter (fun a => decide (key a = d)) := by
  induction l with
  | nil => by_cases hx : key x = d <;> simp [insertDescBy, hx]
  | cons y ys ih =>
    rw [insertDescBy]
    by_cases hle : leB (key y) (key x) = true
    · rw [if_pos hle]
      by_cases hx : key x = d <;> simp [List.filter_cons, hx]
    · rw [if_neg hle]
      by_cases hx : key x = d
      · have hy : ¬ key y = d := by
          intro hyd
          have heq : key y = key x := by rw [hx, hyd]
          rcases htot (key y) (key x) with h' | h'
          · exact hle h'
          · rw [heq] at h'
            exact hle (by rw [heq]; exact h')
        simp [List.filter_cons, hy, ih, hx]
      · by_cases hy : key y = d <;> simp [List.filter_cons, hy, ih, hx]

/-- Stability: for each key value `d`, the sublist of elements whose key
is `d` is unchanged by the sort. -/
theorem filter_sortDescBy [DecidableEq β]
    (htot : ∀ a b, leB a b = true ∨ leB b a = true)
    (l : List α) (d : β) :
    (sortDescBy key leB l).filter (fun a => decide (key a = d)) =
      l.filter (fun a => decide (key a = d)) := by
  induction l with
  | nil => simp [sortDescBy]
  | cons x xs ih =>
    by_cases hx : key x = d <;>
      simp [sortDescBy, filter_insertDescBy key leB htot, hx, ih]

end SortDesc

/-- The comparison used to sort catalog entries: Python string `<=`
on the `date` field. -/
def dateLe (a b : String) : Bool := lexLe a.data b.data

theorem dateLe_total (a b : String) : dateLe a b = true ∨ dateLe b a = true :=
  lexLe_total a.data b.data

theorem dateLe_trans (a b c : String) :
    dateLe a b = true → dateLe b c = true → dateLe a c = true :=
  fun h1 h2 => lexLe_trans h1 h2

/-! ### Catalog indexer (`DataReader.listar_arquivos_disponiveis`)

The adapter's behaviour is abstracted as, per requested layer, either
the list of keys returned by `minio.list_objects` or an adapter error
(the source wraps the per-layer listing in `try/except`). -/

/-- Per-layer adapter outcome: the layer name together with the listed
keys, or an error raised while listing that layer. -/
abbrev LayerListing := List (String × Except Unit (List String))

/-- The decoded entries in adapter order: for each layer in order, the
keys that decode (keys with fewer than 4 segments are dropped); a layer
whose listing raised contributes nothing. -/
def decodedEntries (rs : LayerListing) : List DataFile :=
  (rs.map fun p =>
    match p.2 with
    | .ok keys => keys.filterMap (decodeKey p.1)
    | .error _ => []).flatten

/-- `DataReader.listar_arquivos_disponiveis`: decode all keys of all
requested layers, then `arquivos.sort(key=lambda x: x.date, reverse=True)`. -/
def listar_arquivos_disponiveis (rs : LayerListing) : List DataFile :=
  sortDescBy (fun e => e.date) dateLe (decodedEntries rs)

/-! ### Lemmas about the split, digits and round trip -/

theorem data_asString (l : List Char) : l.asString.data = l := rfl

theorem asString_data (s : String) : s.data.asString = s := by
  cases s; rfl

theorem splitOnChar_of_not_mem (sep : Char) (xs : List Char) (h : sep ∉ xs) :
    splitOnChar sep xs = [xs] := by
  induction xs with
  | nil => rfl
  | cons c cs ih =>
    have hc : ¬ c = sep := fun e => h (e ▸ List.mem_cons_self c cs)
    simp [splitOnChar, hc, ih (fun hm => h (List.mem_cons_of_mem c hm))]

theorem splitOnChar_append (sep : Char) (xs ys : List Char) (h : sep ∉ xs) :
    splitOnChar sep (xs ++ sep :: ys) = xs :: splitOnChar sep ys := by
  induction xs with
  | nil => simp [splitOnChar]
  | cons c cs ih =>
    have hc : ¬ c = sep := fun e => h (e ▸ List.mem_cons_self c cs)
    simp [splitOnChar, hc, ih (fun hm => h (List.mem_cons_of_mem c hm))]

theorem digitChar_ne_slash (n : ℕ) : digitChar n ≠ '/' := by
  unfold digitChar
  have hk : n % 10 < 10 := Nat.mod_lt _ (by norm_num)
  revert hk
  generalize n % 10 = k
  intro hk
  interval_cases k <;> decide

theorem slash_not_mem_twoDigits (n : ℕ) : '/' ∉ twoDigits n := by
  intro h
  simp only [twoDigits, List.mem_cons, List.not_mem_nil, or_false] at h
  rcases h with h | h <;> exact digitChar_ne_slash _ h.symm

theorem slash_not_mem_fourDigits (n : ℕ) : '/' ∉ fourDigits n := by
  intro h
  simp only [fourDigits, List.mem_cons, List.not_mem_nil, or_false] at h
  rcases h with h | h | h | h <;> exact digitChar_ne_slash _ h.symm

/-- C1: path codec round trip.  Encoding a category, date and filename
as `upload_json` does (`category/YYYY/MM/DD/filename`) and decoding the
resulting key as `listar_arquivos_disponiveis` does recovers the
category, the filename and the zero-padded, lexically sortable
`YYYY/MM/DD` date, provided category and filename contain no `'/'`.
The range hypotheses delimit where the fixed-width digit rendering
models `strftime`; they are not otherwise used. -/
theorem path_codec_round_trip (layer category filename : String) (y m d : ℕ)
    (hcat : '/' ∉ category.data) (hfn : '/' ∉ filename.data)
    (hy : y ≤ 9999) (hm : 1 ≤ m) (hm' : m ≤ 12) (hd : 1 ≤ d) (hd' : d ≤ 31) :
    decodeKey layer (uploadObjectPath category y m d filename) =
      some { path := uploadObjectPath category y m d filename
             layer := layer
             category := category
             filename := filename
             date := (datePath y m d).asString } ∧
    (datePath y m d).length = 10 := by
  refine ⟨?_, by simp [datePath, fourDigits, twoDigits]⟩
  have h1 : (uploadObjectPath category y m d filename).data
      = category.data ++ '/' ::
          (fourDigits y ++ '/' :: (twoDigits m ++ '/' :: (twoDigits d ++ '/' :: filename.data))) := by
    simp [uploadObjectPath, datePath, data_asString, List.append_assoc]
  have hsplit : splitOnChar '/' (uploadObjectPath category y m d filename).data
      = [category.data, fourDigits y, twoDigits m, twoDigits d, filename.data] := by
    rw [h1, splitOnChar_append _ _ _ hcat,
        splitOnChar_append _ _ _ (slash_not_mem_fourDigits y),
        splitOnChar_append _ _ _ (slash_not_mem_twoDigits m),
        splitOnChar_append _ _ _ (slash_not_mem_twoDigits d),
        splitOnChar_of_not_mem _ _ hfn]
  simp [decodeKey, hsplit, joinChar, datePath, asString_data, List.append_assoc]

/-- Witness for C1 at a concrete category, filename and date. -/
theorem path_codec_round_trip_witness :
    decodeKey "landing" (uploadObjectPath "categorias" 2024 1 2 "categorias_20240102.json") =
      some { path := uploadObjectPath "categorias" 2024 1 2 "categorias_20240102.json"
             layer := "landing"
             category := "categorias"
             filename := "categorias_20240102.json"
             date := (datePath 2024 1 2).asString } ∧
    (datePath 2024 1 2).length = 10 :=
  path_codec_round_trip "landing" "categorias" "categorias_20240102.json" 2024 1 2
    (by decide) (by decide) (by norm_num) (by norm_num) (by norm_num)
    (by norm_num) (by norm_num)

/-- C2: for every backing store (modelled by the per-layer adapter
results), the listing is sorted non-increasing by the `date` string and
the sort is stable: for each date value, the entries carrying it appear
in exactly the order the adapter (and per-layer decoding) produced
them.  Determinism on a fixed store is immediate because the listing is
a function of the adapter results. -/
theorem listar_sorted_stable (rs : LayerListing) :
    (listar_arquivos_disponiveis rs).Pairwise (fun a b => dateLe b.date a.date = true) ∧
    ∀ d : String,
      (listar_arquivos_disponiveis rs).filter (fun e => decide (e.date = d)) =
        (decodedEntries rs).filter (fun e => decide (e.date = d)) :=
  ⟨pairwise_sortDescBy (fun e => e.date) dateLe dateLe_total dateLe_trans
      (decodedEntries rs),
   fun d => filter_sortDescBy (fun e => e.date) dateLe dateLe_total
      (decodedEntries rs) d⟩

/-! ### Backing store, full listing and query filter -/

/-- The backing object store as seen by a `DataReader` session: the
per-layer key listing (or adapter error) and the JSON document stored
under each (layer, path), `none` when absent or failing to download. -/
structure Store where
  listing : String → Except Unit (List String)
  docs : String → String → Option Json

/-- The three layers walked by `listar_arquivos_disponiveis()` when no
layer argument is given. -/
def allLayers (s : Store) : LayerListing :=
  [("landing", s.listing "landing"), ("raw", s.listing "raw"),
   ("trusted", s.listing "trusted")]

/-- `listar_arquivos_disponiveis()` with no arguments: all three layers. -/
def listarAll (s : Store) : List DataFile :=
  listar_arquivos_disponiveis (allLayers s)

/-- The keyword-argument filters of `buscar_arquivos_por_filtro`; a
`none` field models an absent keyword. -/
structure Filtros where
  layer : Option String := none
  category : Option String := none
  data_inicio : Option String := none
  data_fim : Option String := none
  filename_contains : Option String := none

/-- One pass of the filter loop body of `buscar_arquivos_por_filtro`:
`true` iff none of the five `continue` branches fires. -/
def passesFiltros (f : Filtros) (a : DataFile) : Bool :=
  (match f.layer with
   | none => true
   | some l => a.layer == l) &&
  (match f.category with
   | none => true
   | some c => a.category == c) &&
  (match f.data_inicio with
   | none => true
   | some di => !lexLt a.date.data di.data) &&
  (match f.data_fim with
   | none => true
   | some dfim => !lexLt dfim.data a.date.data) &&
  (match f.filename_contains with
   | none => true
   | some sub => containsSub sub a.filename)

/-- `DataReader.buscar_arquivos_por_filtro`: list everything (all three
layers), keep the entries passing every supplied filter, in order. -/
def buscar_arquivos_por_filtro (f : Filtros) (s : Store) : List DataFile :=
  (listarAll s).filter (passesFiltros f)

/-- C3: the filtered listing is a subsequence of the full listing (in
particular never longer and never reordered), every returned entry
satisfies all supplied predicates conjunctively (equal layer, equal
category, date within the inclusive bounds under lexicographic string
comparison, substring in filename), conversely every listed entry
satisfying all supplied predicates is returned (so an absent predicate
imposes no constraint), and with no supplied predicate the output is
exactly the full listing. -/
theorem buscar_filtro_spec (s : Store) (f : Filtros) :
    (buscar_arquivos_por_filtro f s).Sublist (listarAll s) ∧
    (buscar_arquivos_por_filtro f s).length ≤ (listarAll s).length ∧
    (∀ e ∈ buscar_arquivos_por_filtro f s,
      (∀ l, f.layer = some l → e.layer = l) ∧
      (∀ c, f.category = some c → e.category = c) ∧
      (∀ di, f.data_inicio = some di → lexLe di.data e.date.data = true) ∧
      (∀ dfim, f.data_fim = some dfim → lexLe e.date.data dfim.data = true) ∧
      (∀ sub, f.filename_contains = some sub → containsSub sub e.filename = true)) ∧
    (∀ e ∈ listarAll s,
      ((∀ l, f.layer = some l → e.layer = l) ∧
       (∀ c, f.category = some c → e.category = c) ∧
       (∀ di, f.data_inicio = some di → lexLe di.data e.date.data = true) ∧
       (∀ dfim, f.data_fim = some dfim → lexLe e.date.data dfim.data = true) ∧
       (∀ sub, f.filename_contains = some sub → containsSub sub e.filename = true)) →
      e ∈ buscar_arquivos_por_filtro f s) ∧
    buscar_arquivos_por_filtro {} s = listarAll s := by
  refine ⟨List.filter_sublist _, (List.filter_sublist _).length_le, ?_, ?_, ?_⟩
  · intro e he
    have hp := List.of_mem_filter he
    rw [passesFiltros] at hp
    simp only [Bool.and_eq_true] at hp
    obtain ⟨⟨⟨⟨h1, h2⟩, h3⟩, h4⟩, h5⟩ := hp
    refine ⟨?_, ?_, ?_, ?_, ?_⟩
    · intro l hl
      rw [hl] at h1
      exact eq_of_beq h1
    · intro c hc
      rw [hc] at h2
      exact eq_of_beq h2
    · intro di hdi
      rw [hdi] at h3
      rw [Bool.not_eq_true'] at h3
      exact lexLt_eq_false_iff.mp h3
    · intro dfim hdf
      rw [hdf] at h4
      rw [Bool.not_eq_true'] at h4
      exact lexLt_eq_false_iff.mp h4
    · intro sub hs
      rw [hs] at h5
      exact h5
  · intro e he hconds
    obtain ⟨h1, h2, h3, h4, h5⟩ := hconds
    refine List.mem_filter.mpr ⟨he, ?_⟩
    rw [passesFiltros]
    simp only [Bool.and_eq_true]
    refine ⟨⟨⟨⟨?_, ?_⟩, ?_⟩, ?_⟩, ?_⟩
    · cases hf : f.layer with
      | none => rfl
      | some l => exact beq_iff_eq.mpr (h1 l hf)
    · cases hf : f.category with
      | none => rfl
      | some c => exact beq_iff_eq.mpr (h2 c hf)
    · cases hf : f.data_inicio with
      | none => rfl
      | some di =>
        rw [Bool.not_eq_true']
        exact lexLt_eq_false_iff.mpr (h3 di hf)
    · cases hf : f.data_fim with
      | none => rfl
      | some dfim =>
        rw [Bool.not_eq_true']
        exact lexLt_eq_false_iff.mpr (h4 dfim hf)
    · cases hf : f.filename_contains with
      | none => rfl
      | some sub => exact h5 sub hf
  · exact List.filter_eq_self.mpr fun a _ => rfl

/-- Witness for C3 at a concrete store and filter set. -/
theorem buscar_filtro_spec_witness :
    (buscar_arquivos_por_filtro
        { layer := some "landing", data_inicio := some "2024/01/01" }
        { listing := fun l =>
            if l == "landing" then
              Except.ok ["rankings/2024/01/02/ranking_a_b_1.json", "tmp"]
            else Except.ok []
          docs := fun _ _ => none }).length ≤
      (listarAll
        { listing := fun l =>
            if l == "landing" then
              Except.ok ["rankings/2024/01/02/ranking_a_b_1.json", "tmp"]
            else Except.ok []
          docs := fun _ _ => none }).length ∧
    (∀ e ∈ buscar_arquivos_por_filtro
        { layer := some "landing", data_inicio := some "2024/01/01" }
        { listing := fun l =>
            if l == "landing" then
              Except.ok ["rankings/2024/01/02/ranking_a_b_1.json", "tmp"]
            else Except.ok []
          docs := fun _ _ => none },
      e.layer = "landing" ∧ lexLe "2024/01/01".data e.date.data = true) ∧
    ({ path := "rankings/2024/01/02/ranking_a_b_1.json", layer := "landing",
       category := "rankings", filename := "ranking_a_b_1.json",
       date := "2024/01/02" } : DataFile)
      ∈ buscar_arquivos_por_filtro
        { layer := some "landing", data_inicio := some "2024/01/01" }
        { listing := fun l =>
            if l == "landing" then
              Except.ok ["rankings/2024/01/02/ranking_a_b_1.json", "tmp"]
            else Except.ok []
          docs := fun _ _ => none } ∧
    buscar_arquivos_por_filtro {}
        { listing := fun l =>
            if l == "landing" then
              Except.ok ["rankings/2024/01/02/ranking_a_b_1.json", "tmp"]
            else Except.ok []
          docs := fun _ _ => none } =
      listarAll
        { listing := fun l =>
            if l == "landing" then
              Except.ok ["rankings/2024/01/02/ranking_a_b_1.json", "tmp"]
            else Except.ok []
          docs := fun _ _ => none } := by
  have h := buscar_filtro_spec
    { listing := fun l =>
        if l == "landing" then
          Except.ok ["rankings/2024/01/02/ranking_a_b_1.json", "tmp"]
        else Except.ok []
      docs := fun _ _ => none }
    { layer := some "landing", data_inicio := some "2024/01/01" }
  refine ⟨h.2.1, ?_, ?_, (buscar_filtro_spec _ {}).2.2.2.2⟩
  · intro e he
    obtain ⟨hl, -, hdi, -, -⟩ := h.2.2.1 e he
    exact ⟨hl "landing" rfl, hdi "2024/01/01" rfl⟩
  · refine h.2.2.2.1 _ (by decide) ⟨?_, ?_, ?_, ?_, ?_⟩ <;>
      (intro x hx; (cases hx) <;> decide)

/-- C6: a layer whose adapter listing raises contributes exactly the
same (namely nothing) as a layer whose listing succeeds with zero keys;
the other layers' entries are untouched. -/
theorem listar_layer_failure_isolated (pre post : LayerListing) (layer : String) :
    listar_arquivos_disponiveis (pre ++ (layer, Except.error ()) :: post) =
      listar_arquivos_disponiveis (pre ++ (layer, Except.ok []) :: post) := by
  unfold listar_arquivos_disponiveis decodedEntries
  simp

/-- C5 (amended): every entry of a listing has a path of at least four
`'/'`-segments, with category the first segment, filename the last and
date segments two to four joined; and no key with fewer than four
segments yields any entry. -/
theorem listar_entry_shape (rs : LayerListing) :
    (∀ e ∈ listar_arquivos_disponiveis rs,
      4 ≤ (splitOnChar '/' e.path.data).length ∧
      e.category = ((splitOnChar '/' e.path.data).headD []).asString ∧
      e.filename = ((splitOnChar '/' e.path.data).getLastD []).asString ∧
      e.date = (joinChar '/' (((splitOnChar '/' e.path.data).drop 1).take 3)).asString) ∧
    (∀ layer key, (splitOnChar '/' key.data).length < 4 → decodeKey layer key = none) := by
  constructor
  · intro e he
    rw [listar_arquivos_disponiveis, mem_sortDescBy, decodedEntries,
        List.mem_flatten] at he
    obtain ⟨sub, hsub, hesub⟩ := he
    rw [List.mem_map] at hsub
    obtain ⟨p, -, rfl⟩ := hsub
    cases hres : p.2 with
    | error _ =>
      rw [hres] at hesub
      simp at hesub
    | ok keys =>
      rw [hres] at hesub
      rw [List.mem_filterMap] at hesub
      obtain ⟨key, -, hdec⟩ := hesub
      rw [decodeKey] at hdec
      by_cases hlen : 4 ≤ (splitOnChar '/' key.data).length
      · rw [if_pos hlen] at hdec
        obtain rfl := Option.some_injective _ hdec
        exact ⟨hlen, rfl, rfl, rfl⟩
      · rw [if_neg hlen] at hdec
        cases hdec
  · intro layer key h
    rw [decodeKey, if_neg (by omega)]

/-- Witness for C5 (amended) at a concrete adapter listing: a decoded
entry of a five-segment key, and a two-segment key yielding no entry. -/
theorem listar_entry_shape_witness :
    ({ path := "rankings/2024/01/02/r.json", layer := "landing",
       category := "rankings", filename := "r.json", date := "2024/01/02" } : DataFile)
      ∈ listar_arquivos_disponiveis [("landing", Except.ok ["rankings/2024/01/02/r.json"])] ∧
    4 ≤ (splitOnChar '/' ("rankings/2024/01/02/r.json" : String).data).length ∧
    decodeKey "landing" "a/b" = none := by
  have h := listar_entry_shape [("landing", Except.ok ["rankings/2024/01/02/r.json"])]
  have hm :
      ({ path := "rankings/2024/01/02/r.json", layer := "landing",
         category := "rankings", filename := "r.json", date := "2024/01/02" } : DataFile)
      ∈ listar_arquivos_disponiveis [("landing", Except.ok ["rankings/2024/01/02/r.json"])] := by
    decide
  exact ⟨hm, (h.1 _ hm).1, h.2 "landing" "a/b" (by decide)⟩

/-- C5 counterexample to the claim as stated: a key with exactly four
segments is kept, and its entry's filename is the day segment of its
date (the path does not decompose into five fields with the filename
disjoint from the date). -/
theorem listar_four_segment_key_counterexample :
    listar_arquivos_disponiveis [("landing", Except.ok ["cat/2024/01/02"])] =
      [{ path := "cat/2024/01/02", layer := "landing", category := "cat",
         filename := "02", date := "2024/01/02" }] ∧
    (splitOnChar '/' ("cat/2024/01/02" : String).data).length = 4 ∧
    ((splitOnChar '/' ("cat/2024/01/02" : String).data).getLastD []).asString = "02" ∧
    containsSub "02" "2024/01/02" = true := by
  exact ⟨rfl, rfl, rfl, rfl⟩

/-! ### Cache layer (`DataReader.carregar_dados`) -/

/-- The in-memory `_data_cache` dict: key-value pairs, most recent
insertion first. -/
abbrev DataCache := List (String × Json)

/-- The cache key `f"{layer}:{object_path}"`. -/
def cacheKey (layer path : String) : String := layer ++ ":" ++ path

/-- `DataReader.carregar_dados`, with the adapter abstracted as a pure
`store` map.  Returns the result, the cache after the call and the
number of adapter downloads performed (0 or 1).  Note the source only
stores a downloaded document in the cache when `dados and use_cache` is
truthy, so Python-falsy documents are never cached. -/
def carregar_dados (store : String → String → Option Json) (layer path : String)
    (use_cache : Bool) (cache : DataCache) : Option Json × DataCache × ℕ :=
  match use_cache, cache.lookup (cacheKey layer path) with
  | true, some v => (some v, cache, 0)
  | _, _ =>
    match store layer path with
    | some d =>
      if d.truthy && use_cache then (some d, (cacheKey layer path, d) :: cache, 1)
      else (some d, cache, 1)
    | none => (none, cache, 1)

/-- C4 counterexample to the claim as stated: a stored body that parses
to the (Python-falsy) JSON document `{}` is downloaded again by the
second call — two adapter downloads, not one (the results still agree). -/
theorem carregar_dados_falsy_counterexample :
    ((carregar_dados (fun _ _ => some (Json.obj [])) "landing" "x.json" true []).2.2 +
      (carregar_dados (fun _ _ => some (Json.obj [])) "landing" "x.json" true
        (carregar_dados (fun _ _ => some (Json.obj [])) "landing" "x.json" true []).2.1).2.2 ≠ 1) ∧
    (carregar_dados (fun _ _ => some (Json.obj [])) "landing" "x.json" true []).2.2 +
      (carregar_dados (fun _ _ => some (Json.obj [])) "landing" "x.json" true
        (carregar_dados (fun _ _ => some (Json.obj [])) "landing" "x.json" true []).2.1).2.2 = 2 ∧
    (carregar_dados (fun _ _ => some (Json.obj [])) "landing" "x.json" true []).1 =
      some (Json.obj []) := by
  refine ⟨by decide, rfl, rfl⟩

/-- C4 (amended): for a stored body parsing to a Python-truthy JSON
document not yet cached, two consecutive `carregar_dados(layer, path,
use_cache=True)` calls perform exactly one adapter download (the second
is a pure cache hit) and both return the same document. -/
theorem carregar_dados_cache_idempotent (store : String → String → Option Json)
    (layer path : String) (cache : DataCache) (d : Json)
    (hstore : store layer path = some d) (htruthy : d.truthy = true)
    (hmiss : cache.lookup (cacheKey layer path) = none) :
    (carregar_dados store layer path true cache).2.2 = 1 ∧
    (carregar_dados store layer path true
      (carregar_dados store layer path true cache).2.1).2.2 = 0 ∧
    (carregar_dados store layer path true cache).1 = some d ∧
    (carregar_dados store layer path true
      (carregar_dados store layer path true cache).2.1).1 = some d := by
  have h1 : carregar_dados store layer path true cache =
      (some d, (cacheKey layer path, d) :: cache, 1) := by
    unfold carregar_dados
    rw [hmiss, hstore]
    simp [htruthy]
  have h2 : carregar_dados store layer path true ((cacheKey layer path, d) :: cache) =
      (some d, (cacheKey layer path, d) :: cache, 0) := by
    unfold carregar_dados
    simp [List.lookup]
  rw [h1]
  rw [h2]
  exact ⟨rfl, rfl, rfl, rfl⟩

/-- Witness for C4 (amended) at a concrete store, path and document. -/
theorem carregar_dados_cache_idempotent_witness :
    (carregar_dados (fun _ _ => some (Json.num 7)) "landing" "a/b" true []).2.2 = 1 ∧
    (carregar_dados (fun _ _ => some (Json.num 7)) "landing" "a/b" true
      (carregar_dados (fun _ _ => some (Json.num 7)) "landing" "a/b" true []).2.1).2.2 = 0 ∧
    (carregar_dados (fun _ _ => some (Json.num 7)) "landing" "a/b" true []).1 =
      some (Json.num 7) ∧
    (carregar_dados (fun _ _ => some (Json.num 7)) "landing" "a/b" true
      (carregar_dados (fun _ _ => some (Json.num 7)) "landing" "a/b" true []).2.1).1 =
      some (Json.num 7) :=
  carregar_dados_cache_idempotent (fun _ _ => some (Json.num 7)) "landing" "a/b" []
    (Json.num 7) rfl (by decide) rfl

/-! ### Format decoder (`DataReader.converter_para_dataframe`)

The decoder is modelled over `Json` with Python's dynamic errors made
explicit in an `Except` monad.  A pandas `DataFrame` built from a list
of records is modelled as the list of its rows (`Frame`); positional
integer column labels are rendered as their decimal strings. -/

/-- The Python exceptions the decoder can raise. -/
inductive PyErr : Type where
  | keyError : PyErr
  | typeError : PyErr
  | attributeError : PyErr
  | valueError : PyErr

/-- A row of a tabular result: column name to value. -/
abbrev Row := List (String × Json)

/-- A tabular result: the list of rows. -/
abbrev Frame := List Row

/-- First-match association lookup on a JSON object (dict keys are
unique, so this is Python dict lookup). -/
def lookupKey (kvs : List (String × Json)) (k : String) : Option Json :=
  match kvs with
  | [] => none
  | (k', v) :: rest => if k' == k then some v else lookupKey rest k

/-- Python `d[k]`: `KeyError` when absent. -/
def keyIndex (kvs : List (String × Json)) (k : String) : Except PyErr Json :=
  match lookupKey kvs k with
  | some v => .ok v
  | none => .error .keyError

/-- Python `d.get(k, default)`. -/
def pyGetD (kvs : List (String × Json)) (k : String) (dflt : Json) : Json :=
  (lookupKey kvs k).getD dflt

/-- Python `d.get(k)` (default `None`). -/
def pyGetNone (kvs : List (String × Json)) (k : String) : Json :=
  (lookupKey kvs k).getD Json.null

/-- Python `d.update({k: v})` for one key: replace in place or append. -/
def updateEntry (kvs : List (String × Json)) (k : String) (v : Json) :
    List (String × Json) :=
  if kvs.any (·.1 == k) then
    kvs.map fun kv => if kv.1 == k then (k, v) else kv
  else kvs ++ [(k, v)]

/-- Python `d.update(upds)` over several keys, in order. -/
def updateKeys (kvs : List (String × Json)) (upds : List (String × Json)) :
    List (String × Json) :=
  upds.foldl (fun acc kv => updateEntry acc kv.1 kv.2) kvs

/-- Python `needle in container`: key membership for dicts, element
equality for lists, substring for strings; `TypeError` on scalars. -/
def pyIn (needle : String) (container : Json) : Except PyErr Bool :=
  match container with
  | .obj kvs => .ok (kvs.any (·.1 == needle))
  | .arr xs => .ok (xs.any fun x => Json.beq x (Json.str needle))
  | .str s => .ok (containsSub needle s)
  | _ => .error .typeError

/-- The row `pd.DataFrame([x])` produces for one element `x`: a dict
gives its own columns, a list gives positional columns, anything else a
single column `0`. -/
def rowOf : Json → Row
  | .obj kvs => kvs
  | .arr xs => xs.enum.map fun p => (toString p.1, p.2)
  | j => [("0", j)]

/-- `pd.DataFrame([dados])`: the whole value as exactly one row. -/
def wrapOne (dados : Json) : Frame := [rowOf dados]

/-- `pd.DataFrame(x)` for the shapes the decoder feeds it: a list gives
one row per element; `None` gives an empty frame; a dict must map
column names to equal-length lists (else `ValueError`, as pandas raises
for scalar values or ragged columns); scalars raise `ValueError`. -/
def pdDataFrame (j : Json) : Except PyErr Frame :=
  match j with
  | .arr xs => .ok (xs.map rowOf)
  | .null => .ok []
  | .obj kvs =>
    match kvs.mapM (fun kv =>
        match kv.2 with
        | .arr vs => some (kv.1, vs)
        | _ => none) with
    | some cols =>
      match cols with
      | [] => .ok []
      | c0 :: rest =>
        if rest.all fun c => c.2.length == c0.2.length then
          .ok ((List.range c0.2.length).map fun i =>
            (c0 :: rest).map fun c => (c.1, c.2.getD i Json.null))
        else .error .valueError
    | none => .error .valueError
  | _ => .error .valueError

/-- The row built for one `(seg, subseg)` pair in the `categorias`
branch; evaluation order of the dict literal (`seg['shortname']`,
`seg['title']`, `subseg['shortname']`, `subseg['title']`, then the two
`.get('icon')`) is preserved. -/
def taxChildRow (skvs : List (String × Json)) (subseg : Json) : Except PyErr Row :=
  match subseg with
  | .obj ckvs => do
    let ms ← keyIndex skvs "shortname"
    let mt ← keyIndex skvs "title"
    let ss ← keyIndex ckvs "shortname"
    let st ← keyIndex ckvs "title"
    pure [("main_segment", ms), ("main_title", mt),
          ("secondary_segment", ss), ("secondary_title", st),
          ("main_icon", pyGetNone skvs "icon"),
          ("secondary_icon", pyGetNone ckvs "icon")]
  | _ => .error .typeError

/-- The inner loop of the `categorias` branch for one main segment:
`for subseg in seg.get('childrenSegments', [])`. -/
def taxSegRows (acc : Frame) (seg : Json) : Except PyErr Frame :=
  match seg with
  | .obj skvs =>
    match pyGetD skvs "childrenSegments" (Json.arr []) with
    | .arr children =>
      children.foldlM (fun acc2 subseg => do
        let row ← taxChildRow skvs subseg
        pure (acc2 ++ [row])) acc
    | _ => .error .typeError
  | _ => .error .attributeError

/-- One iteration of the `ofertas` loop body. -/
def ofertaRow (acc : Frame) (item : Json) : Except PyErr Frame := do
  let b ← pyIn "company_info" item
  if b then
    match item with
    | .obj ikvs =>
      match lookupKey ikvs "company_info" with
      | some (.obj ckvs) =>
        pure (acc ++ [updateKeys ckvs
          [("total_discounts", pyGetD ikvs "total_discounts" (Json.num 0)),
           ("total_coupons", pyGetD ikvs "total_coupons" (Json.num 0)),
           ("total_offers", pyGetD ikvs "total_offers" (Json.num 0))]])
      | some _ => .error .attributeError
      | none => .error .keyError
    | _ => .error .typeError
  else pure acc

/-- The body of the `try:` block of `converter_para_dataframe`, by
(already sniffed) `tipo`.  Unknown `tipo` values take the generic
branch, as in the source's final `else`. -/
def convCore (tipo : String) (dados : Json) : Except PyErr Frame :=
  if tipo == "categorias" then
    match dados with
    | .obj kvs =>
      match pyGetD kvs "mainSegments" (Json.arr []) with
      | .arr segs => segs.foldlM taxSegRows []
      | _ => .error .typeError
    | _ => .error .attributeError
  else if tipo == "rankings" then
    match dados with
    | .obj kvs => pdDataFrame (pyGetD kvs "companies" (Json.arr []))
    | _ => .error .attributeError
  else if tipo == "ofertas" then
    match dados with
    | .arr items => items.foldlM ofertaRow []
    | .str _ => .ok []
    | .obj kvs =>
      if kvs.any fun kv => containsSub "company_info" kv.1 then .error .typeError
      else .ok []
    | _ => .error .typeError
  else
    match dados with
    | .arr _ => pdDataFrame dados
    | .obj kvs =>
      if kvs.length == 1 then pdDataFrame (kvs.headD ("", Json.null)).2
      else .ok (wrapOne dados)
    | _ => .ok (wrapOne dados)

/-- The `tipo == 'auto'` structural sniffing, which runs BEFORE the
`try:` block: `'mainSegments' in dados`, `'companies' in dados`,
`isinstance(dados, list) and dados and 'company_info' in dados[0]`.
Its `TypeError`s are not caught. -/
def sniffTipo (dados : Json) : Except PyErr String := do
  let b1 ← pyIn "mainSegments" dados
  if b1 then pure "categorias"
  else do
    let b2 ← pyIn "companies" dados
    if b2 then pure "rankings"
    else
      match dados with
      | .arr (x :: _) => do
        let b3 ← pyIn "company_info" x
        if b3 then pure "ofertas" else pure "auto"
      | _ => pure "auto"

/-- `DataReader.converter_para_dataframe`: sniff when `tipo='auto'`
(outside the `try:`), then run the variant decode; any exception inside
the `try:` falls back to `pd.DataFrame([dados])`. -/
def converter_para_dataframe (dados : Json) (tipo : String) : Except PyErr Frame :=
  match (if tipo == "auto" then sniffTipo dados else .ok tipo) with
  | .error e => .error e
  | .ok t =>
    match convCore t dados with
    | .ok f => .ok f
    | .error _ => .ok (wrapOne dados)

/-- C7: evaluation of the decoder at structurally valid JSON scalars
under `tipo='auto'`.  The sniffing `'mainSegments' in dados` /
`'company_info' in dados[0]` runs before the `try:` block, so a scalar
document, or a list whose first element is a scalar, raises an uncaught
`TypeError` instead of being wrapped as one row. -/
theorem converter_auto_scalar_raises :
    converter_para_dataframe (Json.num 5) "auto" = .error .typeError ∧
    converter_para_dataframe (Json.arr [Json.num 1, Json.num 2, Json.num 3]) "auto" =
      .error .typeError ∧
    converter_para_dataframe Json.null "auto" = .error .typeError :=
  ⟨rfl, rfl, rfl⟩

/-! ### Well-formed taxonomy documents (C8) -/

/-- A well-formed secondary segment, per the data model: `shortname`
and `title` are required strings, `icon` optional. -/
structure ChildSeg where
  shortname : String
  title : String
  icon : Option Json := none

/-- A well-formed main segment; `childrenSegments` may be empty. -/
structure MainSeg where
  shortname : String
  title : String
  icon : Option Json := none
  children : List ChildSeg := []

/-- The JSON object fields of a well-formed child segment. -/
def encodeChildKvs (c : ChildSeg) : List (String × Json) :=
  [("shortname", Json.str c.shortname), ("title", Json.str c.title)] ++
    (match c.icon with | none => [] | some i => [("icon", i)])

/-- A well-formed child segment as JSON. -/
def encodeChild (c : ChildSeg) : Json := Json.obj (encodeChildKvs c)

/-- The JSON object fields of a well-formed main segment. -/
def encodeMainKvs (s : MainSeg) : List (String × Json) :=
  [("shortname", Json.str s.shortname), ("title", Json.str s.title)] ++
    (match s.icon with | none => [] | some i => [("icon", i)]) ++
    [("childrenSegments", Json.arr (s.children.map encodeChild))]

/-- A well-formed main segment as JSON. -/
def encodeMainSeg (s : MainSeg) : Json := Json.obj (encodeMainKvs s)

/-- The expected decoded row for one `(main, child)` pair: the six
fixed columns, icons `null` when absent. -/
def taxRow (s : MainSeg) (c : ChildSeg) : Row :=
  [("main_segment", Json.str s.shortname), ("main_title", Json.str s.title),
   ("secondary_segment", Json.str c.shortname),
   ("secondary_title", Json.str c.title),
   ("main_icon", s.icon.getD Json.null),
   ("secondary_icon", c.icon.getD Json.null)]

theorem taxChildRow_encode (s : MainSeg) (c : ChildSeg) :
    taxChildRow (encodeMainKvs s) (encodeChild c) = .ok (taxRow s c) := by
  rcases s with ⟨ssn, sti, sic, sch⟩
  rcases c with ⟨csn, cti, cic⟩
  cases sic <;> cases cic <;> rfl

theorem tax_children_fold (s : MainSeg) (cs : List ChildSeg) (acc : Frame) :
    (cs.map encodeChild).foldlM (fun acc2 subseg => do
        let row ← taxChildRow (encodeMainKvs s) subseg
        pure (acc2 ++ [row])) acc = .ok (acc ++ cs.map (taxRow s)) := by
  induction cs generalizing acc with
  | nil =>
    rw [List.map_nil, List.foldlM_nil, List.map_nil, List.append_nil]
    rfl
  | cons c cs ih =>
    simp only [List.map_cons, List.foldlM_cons, taxChildRow_encode]
    simpa [List.append_assoc] using ih (acc ++ [taxRow s c])

theorem taxSegRows_encode (s : MainSeg) (acc : Frame) :
    taxSegRows acc (encodeMainSeg s) = .ok (acc ++ s.children.map (taxRow s)) := by
  have hget : pyGetD (encodeMainKvs s) "childrenSegments" (Json.arr []) =
      Json.arr (s.children.map encodeChild) := by
    rcases s with ⟨ssn, sti, sic, sch⟩
    cases sic <;> rfl
  rw [encodeMainSeg]
  simp only [taxSegRows, hget]
  exact tax_children_fold s s.children acc

theorem tax_segs_fold (segs : List MainSeg) (acc : Frame) :
    (segs.map encodeMainSeg).foldlM taxSegRows acc =
      .ok (acc ++ (segs.map fun s => s.children.map (taxRow s)).flatten) := by
  induction segs generalizing acc with
  | nil =>
    rw [List.map_nil, List.foldlM_nil, List.map_nil, List.flatten_nil,
        List.append_nil]
    rfl
  | cons s segs ih =>
    simp only [List.map_cons, List.foldlM_cons, taxSegRows_encode]
    simpa [List.append_assoc] using ih (acc ++ s.children.map (taxRow s))

theorem lookupKey_any {kvs : List (String × Json)} {k : String} {v : Json}
    (h : lookupKey kvs k = some v) : kvs.any (·.1 == k) = true := by
  induction kvs with
  | nil => cases h
  | cons kv rest ih =>
    rw [lookupKey] at h
    by_cases hk : kv.1 == k
    · simp [hk]
    · obtain ⟨k', v'⟩ := kv
      simp only at hk
      rw [if_neg hk] at h
      simp [hk, ih h]

/-- C8: for every taxonomy document — a JSON object whose
`mainSegments` field holds well-formed main segments — the auto-sniffed
decode yields exactly one row per `(main, child)` pair, with the six
columns `main_segment, main_title, secondary_segment, secondary_title,
main_icon, secondary_icon` (icons `null` when absent), and a main
segment with no children contributes zero rows. -/
theorem converter_taxonomy_rows (kvs : List (String × Json)) (segs : List MainSeg)
    (h : lookupKey kvs "mainSegments" = some (Json.arr (segs.map encodeMainSeg))) :
    converter_para_dataframe (Json.obj kvs) "auto" =
      .ok ((segs.map fun s => s.children.map (taxRow s)).flatten) := by
  have hany : kvs.any (·.1 == "mainSegments") = true := lookupKey_any h
  have hsniff : sniffTipo (Json.obj kvs) = .ok "categorias" := by
    rw [sniffTipo]
    · simp only [pyIn, hany]
      rfl
    · intro x tail hx
      simp at hx
  have hcore : convCore "categorias" (Json.obj kvs) =
      .ok ((segs.map fun s => s.children.map (taxRow s)).flatten) := by
    rw [convCore]
    rw [show pyGetD kvs "mainSegments" (Json.arr []) =
        Json.arr (segs.map encodeMainSeg) by rw [pyGetD, h]; rfl]
    simp only [beq_self_eq_true, if_true]
    simpa using tax_segs_fold segs []
  rw [converter_para_dataframe]
  rw [show (if (("auto" : String) == "auto") = true then sniffTipo (Json.obj kvs)
      else Except.ok "auto") = sniffTipo (Json.obj kvs) from rfl]
  rw [hsniff]
  simp only [hcore]

/-- Witness for C8: the taxonomy example of the specification decodes
to exactly one row with the six expected columns. -/
theorem converter_taxonomy_rows_witness :
    converter_para_dataframe
      (Json.obj [("mainSegments", Json.arr [Json.obj
        [("shortname", Json.str "bancos"), ("title", Json.str "Bancos"),
         ("childrenSegments", Json.arr [Json.obj
           [("shortname", Json.str "cartoes"), ("title", Json.str "Cartões")]])]])])
      "auto" =
      .ok [[("main_segment", Json.str "bancos"), ("main_title", Json.str "Bancos"),
            ("secondary_segment", Json.str "cartoes"),
            ("secondary_title", Json.str "Cartões"),
            ("main_icon", Json.null), ("secondary_icon", Json.null)]] :=
  converter_taxonomy_rows
    [("mainSegments", Json.arr [encodeMainSeg
      { shortname := "bancos", title := "Bancos",
        children := [{ shortname := "cartoes", title := "Cartões" }] }])]
    [{ shortname := "bancos", title := "Bancos",
       children := [{ shortname := "cartoes", title := "Cartões" }] }]
    rfl

/-- C10: when an explicitly selected known variant decode raises inside
the `try:` block, `converter_para_dataframe` catches the exception and
returns the whole document wrapped as a single row. -/
theorem converter_known_variant_fallback (dados : Json) (tipo : String) (e : PyErr)
    (hknown : tipo = "categorias" ∨ tipo = "rankings" ∨ tipo = "ofertas")
    (herr : convCore tipo dados = .error e) :
    converter_para_dataframe dados tipo = .ok (wrapOne dados) := by
  have hne : (tipo == "auto") = false := by
    rcases hknown with rfl | rfl | rfl <;> rfl
  rw [converter_para_dataframe, hne]
  simp only [Bool.false_eq_true, if_false, herr]

/-- Witness for C10: a taxonomy whose main segment lacks `shortname`
raises `KeyError` partway through the `categorias` decode, and the
whole document comes back as one row. -/
theorem converter_known_variant_fallback_witness :
    convCore "categorias"
      (Json.obj [("mainSegments", Json.arr [Json.obj
        [("title", Json.str "X"),
         ("childrenSegments", Json.arr [Json.obj []])]])]) =
      .error .keyError ∧
    converter_para_dataframe
      (Json.obj [("mainSegments", Json.arr [Json.obj
        [("title", Json.str "X"),
         ("childrenSegments", Json.arr [Json.obj []])]])])
      "categorias" =
      .ok [[("mainSegments", Json.arr [Json.obj
        [("title", Json.str "X"),
         ("childrenSegments", Json.arr [Json.obj []])]])]] :=
  ⟨rfl,
   converter_known_variant_fallback
     (Json.obj [("mainSegments", Json.arr [Json.obj
       [("title", Json.str "X"),
        ("childrenSegments", Json.arr [Json.obj []])]])])
     "categorias" .keyError (Or.inl rfl) rfl⟩

/-! ### Aggregation layer (`data_helpers.DataAnalyzer`)

The analyzer reads documents through `DataReader.carregar_dados`; for a
deterministic backing store the cache never changes a returned value
(it only avoids downloads, the subject of C4), so document access is
modelled directly by `Store.docs`. -/

/-- `DataReader.carregar_rankings_categoria` (layer `landing`): the
ranking files whose filename contains `ranking_<main>_<sec>`, each as
`(data_coleta, arquivo, dados)`; Python-falsy documents are skipped by
the `if dados:` guard. -/
def carregar_rankings_categoria (s : Store) (main sec : String) :
    List (String × String × Json) :=
  let arquivos := buscar_arquivos_por_filtro
    { layer := some "landing", category := some "rankings",
      filename_contains := some ("ranking_" ++ main ++ "_" ++ sec) } s
  arquivos.filterMap fun a =>
    match s.docs "landing" a.path with
    | some d => if d.truthy then some (a.date, a.filename, d) else none
    | none => none

/-- `DataAnalyzer.obter_top_empresas_categoria`: `none` models the
empty-DataFrame early returns; otherwise the truncated `companies`
rows together with the collection date.  Non-list `companies` values
make the slice or the DataFrame constructor raise, uncaught. -/
def obter_top_empresas_categoria (s : Store) (main sec : String) (limit : ℕ) :
    Except PyErr (Option (List Json × String)) :=
  match carregar_rankings_categoria s main sec with
  | [] => .ok none
  | (dc, _, d) :: _ => do
    let b ← pyIn "companies" d
    if !b then .ok none
    else
      match d with
      | .obj kvs =>
        match lookupKey kvs "companies" with
        | some (.arr xs) => .ok (some (xs.take limit, dc))
        | some (.str _) => .error .valueError
        | some _ => .error .typeError
        | none => .ok none
      | _ => .error .typeError

/-- `metric in df.columns` for the frame built by
`obter_top_empresas_categoria`: the union of the company-row keys plus
the three columns the function adds. -/
def columnsContain (rows : List Json) (metric : String) : Bool :=
  metric == "main_segment" || metric == "secondary_segment" ||
  metric == "data_coleta" ||
  rows.any fun r =>
    match r with
    | .obj kvs => kvs.any (·.1 == metric)
    | _ => false

/-- The numeric values of `metric` across the company rows (pandas
statistics skip missing entries). -/
def metricVals (rows : List Json) (metric : String) : List ℚ :=
  rows.filterMap fun r =>
    match r with
    | .obj kvs =>
      match lookupKey kvs metric with
      | some (.num q) => some q
      | _ => none
    | _ => none

/-- Sum of a list of rationals. -/
def sumQ (xs : List ℚ) : ℚ := xs.foldl (· + ·) 0

/-- Column mean (exact-rational model of the float mean; `0` stands for
the NaN pandas produces on an all-missing column). -/
def meanQ (xs : List ℚ) : ℚ := sumQ xs / xs.length

/-- Ascending sort of rationals (for the median). -/
def sortAscQ (xs : List ℚ) : List ℚ :=
  sortDescBy (fun q => q) (fun a b => decide (b ≤ a)) xs

/-- Column median, as pandas computes it. -/
def medianQ (xs : List ℚ) : ℚ :=
  let srtd := sortAscQ xs
  let n := srtd.length
  if n == 0 then 0
  else if n % 2 == 1 then srtd.getD (n / 2) 0
  else (srtd.getD (n / 2 - 1) 0 + srtd.getD (n / 2) 0) / 2

/-- Column minimum (`0` for the empty column, standing for NaN). -/
def minQ : List ℚ → ℚ
  | [] => 0
  | x :: xs => xs.foldl min x

/-- Column maximum (`0` for the empty column, standing for NaN). -/
def maxQ : List ℚ → ℚ
  | [] => 0
  | x :: xs => xs.foldl max x

/-- Sample variance with one delta degree of freedom; the source's
`std` column stores the square root of this value (irrational in
general, and NaN — here `none` — for fewer than two samples).  No claim
depends on the value of this column. -/
def sampleVarQ (xs : List ℚ) : Option ℚ :=
  if 2 ≤ xs.length then
    some (sumQ (xs.map fun x => (x - meanQ xs) ^ 2) / (xs.length - 1))
  else none

/-- One row of the `comparar_categorias` result: the five statistics of
the chosen metric over one category pair. -/
structure CompRow where
  main_segment : String
  secondary_segment : String
  categoria_completa : String
  total_empresas : ℕ
  metric_media : ℚ
  metric_mediana : ℚ
  metric_min : ℚ
  metric_max : ℚ
  metric_var : Option ℚ
  deriving DecidableEq, Repr

/-- The stats record appended for one kept pair. -/
def mkStats (main sec metric : String) (rows : List Json) : CompRow :=
  let vals := metricVals rows metric
  { main_segment := main, secondary_segment := sec,
    categoria_completa := main ++ "/" ++ sec,
    total_empresas := rows.length,
    metric_media := meanQ vals, metric_mediana := medianQ vals,
    metric_min := minQ vals, metric_max := maxQ vals,
    metric_var := sampleVarQ vals }

/-- `DataAnalyzer.comparar_categorias`: for each pair take the top 50
companies, skip the pair when the frame is empty or lacks the metric
column, then `pd.DataFrame(resultados).sort_values(f'{metric}_media',
ascending=False)`.  When every pair was skipped, `resultados` is empty,
the empty DataFrame has no columns, and `sort_values` raises
`KeyError`. -/
def comparar_categorias (s : Store) (pairs : List (String × String))
    (metric : String) : Except PyErr (List CompRow) :=
  match pairs.foldlM (fun (acc : List CompRow) p => do
      let r ← obter_top_empresas_categoria s p.1 p.2 50
      match r with
      | none => pure acc
      | some (rows, _) =>
        if !rows.isEmpty && columnsContain rows metric then
          pure (acc ++ [mkStats p.1 p.2 metric rows])
        else pure acc) [] with
  | .error e => .error e
  | .ok resultados =>
    match resultados with
    | [] => .error .keyError
    | _ => .ok (sortDescBy (fun r => r.metric_media)
        (fun a b => decide (a ≤ b)) resultados)

/-- `DataReader.carregar_ultima_coleta`: most recent file of a category
(index 0 of the date-descending filtered listing), `none` when no file
matches or the download fails. -/
def carregar_ultima_coleta (s : Store) (category layer : String) : Option Json :=
  match buscar_arquivos_por_filtro
      { layer := some layer, category := some category } s with
  | [] => none
  | a :: _ => s.docs layer a.path

/-- `DataReader.carregar_todas_categorias` (layer `landing`). -/
def carregar_todas_categorias (s : Store) : Option Json :=
  carregar_ultima_coleta s "categorias" "landing"

/-- Python `str.replace(pat, '')` for a non-empty pattern:
left-to-right, non-overlapping removal. -/
def removeAll (pat : List Char) : List Char → List Char
  | [] => []
  | c :: cs =>
    if h : pat ≠ [] ∧ pat.isPrefixOf (c :: cs) then
      removeAll pat (cs.drop (pat.length - 1))
    else c :: removeAll pat cs
  termination_by l => l.length
  decreasing_by
    · simp only [List.length_drop, List.length_cons]
      omega
    · simp only [List.length_cons]
      omega

/-- Python string rendering inside the f-string
`f"{row['main_segment']}_{row['secondary_segment']}"`; only string
fields occur for decoded taxonomy rows. -/
def renderPy : Json → String
  | .str s => s
  | _ => ""

/-- Membership of the `(main, secondary)` tuple of a taxonomy row in
the set of pairs extracted from ranking filenames. -/
def pairMatch (pares : List (String × String)) (ms ss : Json) : Bool :=
  pares.any fun p => Json.beq ms (Json.str p.1) && Json.beq ss (Json.str p.2)

/-- `DataAnalyzer.listar_categorias_com_dados`: empty frame when no (or
a falsy) taxonomy document exists; otherwise the taxonomy rows having
at least one `ranking_<main>_<secondary>` file, annotated with the
matching-file count and sorted by it descending.  (The category pairs
are collected into a Python set; only membership is used, so it is
modelled as a list with possible duplicates.) -/
def listar_categorias_com_dados (s : Store) : Except PyErr Frame :=
  match carregar_todas_categorias s with
  | none => .ok []
  | some categorias =>
    if !categorias.truthy then .ok []
    else do
      let arquivos_ranking := buscar_arquivos_por_filtro
        { category := some "rankings" } s
      let pares := arquivos_ranking.foldl (fun (acc : List (String × String)) a =>
        if containsSub "ranking_" a.filename then
          let parts := splitOnChar '_'
            (removeAll ".json".data (removeAll "ranking_".data a.filename.data))
          if 2 ≤ parts.length then
            acc ++ [((parts.headD []).asString, ((parts.drop 1).headD []).asString)]
          else acc
        else acc) []
      let dfc ← converter_para_dataframe categorias "categorias"
      let checked ← dfc.mapM fun row => do
        let ms ← keyIndex row "main_segment"
        let ss ← keyIndex row "secondary_segment"
        pure (row, ms, ss)
      let filtered := checked.filter fun rc => pairMatch pares rc.2.1 rc.2.2
      let annotated := filtered.map fun rc =>
        rc.1 ++ [("arquivos_disponiveis", Json.num
          ((arquivos_ranking.filter fun arq =>
            containsSub (renderPy rc.2.1 ++ "_" ++ renderPy rc.2.2)
              arq.filename).length : ℕ))]
      pure (sortDescBy
        (fun row => match lookupKey row "arquivos_disponiveis" with
          | some (.num q) => q
          | _ => 0)
        (fun a b => decide (a ≤ b)) annotated)

theorem insertDescBy_ne_nil {α β : Type*} (key : α → β) (leB : β → β → Bool)
    (x : α) (l : List α) : insertDescBy key leB x l ≠ [] := by
  cases l with
  | nil => simp [insertDescBy]
  | cons y ys =>
    rw [insertDescBy]
    split <;> simp

theorem qLeB_total (a b : ℚ) : decide (a ≤ b) = true ∨ decide (b ≤ a) = true := by
  rcases le_total a b with h | h
  · left
    exact decide_eq_true h
  · right
    exact decide_eq_true h

theorem qLeB_trans (a b c : ℚ) :
    decide (a ≤ b) = true → decide (b ≤ c) = true → decide (a ≤ c) = true := by
  intro h1 h2
  exact decide_eq_true (le_trans (of_decide_eq_true h1) (of_decide_eq_true h2))

/-- C9 counterexample to the claim as stated: with an empty backing
store every requested pair is skipped, `resultados` is empty, and
`pd.DataFrame([]).sort_values('finalScore_media')` raises `KeyError`
instead of returning an explicit empty result. -/
theorem comparar_all_skipped_raises :
    comparar_categorias
      { listing := fun _ => Except.ok [], docs := fun _ _ => none }
      [("a", "b")] "finalScore" = .error .keyError := rfl

/-- C9 (amended): `comparar_categorias` raises `KeyError` rather than
returning an empty result when every pair is skipped — whenever it
succeeds, its result is non-empty and sorted descending by the
metric's mean; and `listar_categorias_com_dados` returns an explicit
empty result when no taxonomy document exists. -/
theorem comparar_and_listar_spec (s : Store) (pairs : List (String × String))
    (metric : String) :
    (∀ rows, comparar_categorias s pairs metric = .ok rows →
      rows ≠ [] ∧ rows.Pairwise fun a b => b.metric_media ≤ a.metric_media) ∧
    (carregar_todas_categorias s = none → listar_categorias_com_dados s = .ok []) := by
  constructor
  · intro rows hok
    rw [comparar_categorias] at hok
    split at hok
    · cases hok
    · rename_i resultados heq
      split at hok
      · cases hok
      · rename_i hne
        have hres := (Except.ok.inj hok).symm
        constructor
        · rw [hres]
          cases resultados with
          | nil => exact absurd rfl hne
          | cons r rest =>
            rw [sortDescBy]
            exact insertDescBy_ne_nil _ _ _ _
        · rw [hres]
          exact (pairwise_sortDescBy (fun r => r.metric_media)
              (fun a b => decide (a ≤ b)) qLeB_total qLeB_trans resultados).imp
            fun h => of_decide_eq_true h
  · intro hnone
    rw [listar_categorias_com_dados]
    rw [hnone]

/-- Witness for C9 (amended) at concrete stores: one ranking file for
the pair `(a, b)` gives a non-empty, sorted result, and the empty store
(no taxonomy document) gives the empty frame. -/
theorem comparar_and_listar_spec_witness :
    comparar_categorias
      { listing := fun l =>
          if l == "landing" then
            Except.ok ["rankings/2024/01/02/ranking_a_b_1.json"]
          else Except.ok []
        docs := fun l p =>
          if l == "landing" && p == "rankings/2024/01/02/ranking_a_b_1.json" then
            some (Json.obj [("companies",
              Json.arr [Json.obj [("finalScore", Json.num 7)]])])
          else none }
      [("a", "b")] "finalScore" =
      .ok [mkStats "a" "b" "finalScore" [Json.obj [("finalScore", Json.num 7)]]] ∧
    ([mkStats "a" "b" "finalScore" [Json.obj [("finalScore", Json.num 7)]]] ≠
      ([] : List CompRow)) ∧
    [mkStats "a" "b" "finalScore" [Json.obj [("finalScore", Json.num 7)]]].Pairwise
      (fun a b => b.metric_media ≤ a.metric_media) ∧
    listar_categorias_com_dados
      { listing := fun _ => Except.ok [], docs := fun _ _ => none } = .ok [] := by
  have hcomp : comparar_categorias
      { listing := fun l =>
          if l == "landing" then
            Except.ok ["rankings/2024/01/02/ranking_a_b_1.json"]
          else Except.ok []
        docs := fun l p =>
          if l == "landing" && p == "rankings/2024/01/02/ranking_a_b_1.json" then
            some (Json.obj [("companies",
              Json.arr [Json.obj [("finalScore", Json.num 7)]])])
          else none }
      [("a", "b")] "finalScore" =
      .ok [mkStats "a" "b" "finalScore" [Json.obj [("finalScore", Json.num 7)]]] := rfl
  have h := (comparar_and_listar_spec _ [("a", "b")] "finalScore").1 _ hcomp
  exact ⟨hcomp, h.1, h.2,
    (comparar_and_listar_spec
      { listing := fun _ => Except.ok [], docs := fun _ _ => none } [] "x").2 rfl⟩

end ScraperRA
